import Mathlib

/-!
Verification of the GoldHEN plugin-fix scripts (`goldhen_plugins_fix.mjs`,
`auto_goldhen_fix.mjs`, `goldhen_config_manager.mjs`).

The JavaScript code is shallowly embedded here: JS strings become `List Char`,
the browser `localStorage`/`sessionStorage` pair becomes an explicit state
record, and the syscall layer (`chain.sysi`) becomes an oracle record plus an
explicit trace of issued calls.  Every definition follows the corresponding
source function line by line; definitions whose name does not appear in the
source are either helper decompositions of a source loop or are explicitly
marked as modelled from the spec.
-/

set_option maxRecDepth 200000

namespace GoldHEN

/-- Character-level substring test, the embedding of JavaScript
`String.prototype.includes`: `containsSub needle hay` is true iff `needle`
occurs contiguously inside `hay`. -/
def containsSub (needle : List Char) : List Char → Bool
  | [] => needle.isEmpty
  | c :: rest => needle.isPrefixOf (c :: rest) || containsSub needle rest

/-- Whitespace recognized by the embedding of JavaScript `String.prototype.trim`. -/
def wsChar (c : Char) : Bool := c = ' ' || c = '\t' || c = '\n' || c = '\r'

/-- Embedding of JavaScript `String.prototype.trim`: strip leading and trailing
whitespace. -/
def trimWs (s : List Char) : List Char :=
  ((s.dropWhile wsChar).reverse.dropWhile wsChar).reverse

/-- Worker for the embedding of JavaScript `text.split('\n')`: returns the
first group and the remaining groups. -/
def splitNlCore : List Char → List Char × List (List Char)
  | [] => ([], [])
  | c :: rest =>
    if c = '\n' then ([], (splitNlCore rest).1 :: (splitNlCore rest).2)
    else (c :: (splitNlCore rest).1, (splitNlCore rest).2)

/-- Embedding of JavaScript `text.split('\n')`.  On the empty string it returns
one empty group, exactly as in JS. -/
def splitNl (t : List Char) : List (List Char) :=
  (splitNlCore t).1 :: (splitNlCore t).2

/-- Embedding of JavaScript `lines.join('\n')`. -/
def joinNl : List (List Char) → List Char
  | [] => []
  | [l] => l
  | l :: l' :: rest => l ++ '\n' :: joinNl (l' :: rest)

/-- The line-scanning loop of `updateConfigSetting`
(`goldhen_plugins_fix.mjs:150-161`): replace the first line that *contains*
`setting` (JS `includes`, substring match) with `setting=value`; if no line
contains it, push `setting=value` at the end. -/
def upsertLines (setting value : List Char) : List (List Char) → List (List Char)
  | [] => [setting ++ '=' :: value]
  | line :: rest =>
    if containsSub setting line then (setting ++ '=' :: value) :: rest
    else line :: upsertLines setting value rest

/-- Embedding of `updateConfigSetting` (`goldhen_plugins_fix.mjs:145-164`):
split on newlines, run the scan-and-replace loop, join with newlines. -/
def updateConfigSetting (config_text setting value : List Char) : List Char :=
  joinNl (upsertLines setting value (splitNl config_text))

/-- The filtering loop of `parsePluginsList` (`goldhen_plugins_fix.mjs:250-255`):
keep each trimmed line that is non-empty, does not start with `[` or `#`, and
contains `.prx`. -/
def parsePluginsAux : List (List Char) → List (List Char)
  | [] => []
  | line :: rest =>
    let trimmed := trimWs line
    if !trimmed.isEmpty && !(['['].isPrefixOf trimmed) && !(['#'].isPrefixOf trimmed)
        && containsSub ".prx".data trimmed
    then trimmed :: parsePluginsAux rest
    else parsePluginsAux rest

/-- Embedding of `parsePluginsList` (`goldhen_plugins_fix.mjs:246-258`). -/
def parsePluginsList (plugins_text : List Char) : List (List Char) :=
  parsePluginsAux (splitNl plugins_text)

/-! ### Basic facts about the text primitives -/

theorem containsSub_iff_occurs (needle hay : List Char) :
    containsSub needle hay = true ↔ needle <:+: hay := by
  induction hay with
  | nil =>
    simp [containsSub, List.isEmpty_iff, List.infix_nil]
  | cons c rest ih =>
    simp only [containsSub, Bool.or_eq_true, ih, List.infix_cons_iff,
      List.isPrefixOf_iff_prefix]

theorem containsSub_append_left (needle a b : List Char)
    (h : containsSub needle a = true) : containsSub needle (a ++ b) = true := by
  rw [containsSub_iff_occurs] at h ⊢
  exact h.trans (List.prefix_append a b).isInfix

theorem containsSub_of_isPrefixOf {needle hay : List Char}
    (h : needle.isPrefixOf hay = true) : containsSub needle hay = true := by
  rw [containsSub_iff_occurs]
  exact (List.isPrefixOf_iff_prefix.mp h).isInfix

theorem mem_of_containsSub {needle hay : List Char} {c : Char}
    (h : containsSub needle hay = true) (hc : c ∈ needle) : c ∈ hay := by
  rw [containsSub_iff_occurs] at h
  exact h.sublist.subset hc

/-- Decomposition of a substring occurrence in a concatenation: the occurrence
lies inside the left part, inside the right part, or spans the boundary. -/
theorem containsSub_append_cases {needle a b : List Char}
    (h : containsSub needle (a ++ b) = true) :
    containsSub needle a = true ∨ containsSub needle b = true ∨
      ∃ n₁ n₂, needle = n₁ ++ n₂ ∧ n₁ ≠ [] ∧ n₂ ≠ [] ∧ n₁ <:+ a ∧ n₂ <+: b := by
  rw [containsSub_iff_occurs] at h
  obtain ⟨s, u, hsu⟩ := h
  have hsu' : s ++ (needle ++ u) = a ++ b := by simpa [List.append_assoc] using hsu
  rcases List.append_eq_append_iff.mp hsu' with ⟨a', ha, hx⟩ | ⟨c', hs, hb⟩
  · -- ha : a = s ++ a', hx : needle ++ u = a' ++ b
    rcases List.append_eq_append_iff.mp hx with ⟨w, ha', hu⟩ | ⟨w, hn, hb⟩
    · -- ha' : a' = needle ++ w, hu : u = w ++ b — the occurrence is inside a
      left
      rw [containsSub_iff_occurs]
      refine ⟨s, w, ?_⟩
      rw [List.append_assoc, ← ha']
      exact ha.symm
    · -- hn : needle = a' ++ w, hb : b = w ++ u — boundary-spanning or degenerate
      rcases eq_or_ne a' [] with rfl | ha'ne
      · right; left
        rw [containsSub_iff_occurs]
        refine ⟨[], u, ?_⟩
        simp only [List.nil_append] at hn ⊢
        rw [hn, hb]
      · rcases eq_or_ne w [] with rfl | hwne
        · left
          rw [containsSub_iff_occurs]
          refine ⟨s, [], ?_⟩
          rw [List.append_nil] at hn ⊢
          rw [hn]
          exact ha.symm
        · right; right
          exact ⟨a', w, hn, ha'ne, hwne, ⟨s, ha.symm⟩, ⟨u, hb.symm⟩⟩
  · -- hs : s = a ++ c', hb : b = c' ++ (needle ++ u) — the occurrence is inside b
    right; left
    rw [containsSub_iff_occurs]
    refine ⟨c', u, ?_⟩
    rw [hb, List.append_assoc]

theorem splitNl_ne_nil (t : List Char) : splitNl t ≠ [] := by
  simp [splitNl]

theorem splitNlCore_no_newline (t : List Char) :
    '\n' ∉ (splitNlCore t).1 ∧ ∀ l ∈ (splitNlCore t).2, '\n' ∉ l := by
  induction t with
  | nil => simp [splitNlCore]
  | cons c rest ih =>
    by_cases hc : c = '\n'
    · simp only [splitNlCore, hc, if_pos rfl]
      refine ⟨by simp, ?_⟩
      intro l hl
      rcases List.mem_cons.mp hl with rfl | hl'
      · exact ih.1
      · exact ih.2 l hl'
    · simp only [splitNlCore, if_neg hc]
      refine ⟨?_, ih.2⟩
      intro hmem
      rcases List.mem_cons.mp hmem with h | h
      · exact hc h.symm
      · exact ih.1 h

theorem splitNl_no_newline (t : List Char) : ∀ l ∈ splitNl t, '\n' ∉ l := by
  intro l hl
  rcases List.mem_cons.mp hl with rfl | hl'
  · exact (splitNlCore_no_newline t).1
  · exact (splitNlCore_no_newline t).2 l hl'

theorem splitNlCore_of_no_newline {l : List Char} (h : '\n' ∉ l) :
    splitNlCore l = (l, []) := by
  induction l with
  | nil => simp [splitNlCore]
  | cons c rest ih =>
    have hc : c ≠ '\n' := fun hc => h (hc ▸ List.mem_cons_self _ _)
    have hr : '\n' ∉ rest := fun hm => h (List.mem_cons_of_mem _ hm)
    simp [splitNlCore, hc, ih hr]

theorem splitNl_of_no_newline {l : List Char} (h : '\n' ∉ l) : splitNl l = [l] := by
  simp [splitNl, splitNlCore_of_no_newline h]

theorem splitNlCore_append_newline {l : List Char} (t : List Char) (h : '\n' ∉ l) :
    splitNlCore (l ++ '\n' :: t) = (l, (splitNlCore t).1 :: (splitNlCore t).2) := by
  induction l with
  | nil => simp [splitNlCore]
  | cons c rest ih =>
    have hc : c ≠ '\n' := fun hc => h (hc ▸ List.mem_cons_self _ _)
    have hr : '\n' ∉ rest := fun hm => h (List.mem_cons_of_mem _ hm)
    simp [splitNlCore, hc, ih hr]

theorem splitNl_append_newline {l : List Char} (t : List Char) (h : '\n' ∉ l) :
    splitNl (l ++ '\n' :: t) = l :: splitNl t := by
  simp [splitNl, splitNlCore_append_newline t h]

/-- Splitting after joining recovers the original groups, provided each group is
newline-free (as the groups produced by `splitNl` always are). -/
theorem splitNl_joinNl {ls : List (List Char)} (hne : ls ≠ [])
    (h : ∀ l ∈ ls, '\n' ∉ l) : splitNl (joinNl ls) = ls := by
  induction ls with
  | nil => exact absurd rfl hne
  | cons l rest ih =>
    match rest with
    | [] => exact splitNl_of_no_newline (h l (List.mem_cons_self _ _))
    | l' :: rest' =>
      have h1 : '\n' ∉ l := h l (List.mem_cons_self _ _)
      have h2 : ∀ x ∈ l' :: rest', '\n' ∉ x := fun x hx => h x (List.mem_cons_of_mem _ hx)
      simp only [joinNl, splitNl_append_newline _ h1, ih (by simp) h2]

/-! ### Characterization of the upsert loop -/

theorem isPrefixOf_append_self (s t : List Char) : s.isPrefixOf (s ++ t) = true :=
  List.isPrefixOf_iff_prefix.mpr (List.prefix_append s t)

theorem containsSub_kv (setting value : List Char) :
    containsSub setting (setting ++ '=' :: value) = true :=
  containsSub_of_isPrefixOf (isPrefixOf_append_self setting ('=' :: value))

/-- If a line starts with `setting=` then it contains `setting` as a substring. -/
theorem containsSub_of_defines {setting l : List Char}
    (h : (setting ++ ['=']).isPrefixOf l = true) : containsSub setting l = true := by
  rw [containsSub_iff_occurs]
  exact ((List.prefix_append setting ['=']).trans (List.isPrefixOf_iff_prefix.mp h)).isInfix

theorem upsertLines_of_not_found {setting : List Char} (value : List Char)
    {ls : List (List Char)} (h : ∀ l ∈ ls, containsSub setting l = false) :
    upsertLines setting value ls = ls ++ [setting ++ '=' :: value] := by
  induction ls with
  | nil => simp [upsertLines]
  | cons l rest ih =>
    have hl : containsSub setting l = false := h l (List.mem_cons_self _ _)
    have hr : ∀ x ∈ rest, containsSub setting x = false :=
      fun x hx => h x (List.mem_cons_of_mem _ hx)
    simp [upsertLines, hl, ih hr]

theorem upsertLines_of_found {setting : List Char} (value : List Char)
    {pre : List (List Char)} {line : List Char} (post : List (List Char))
    (hpre : ∀ l ∈ pre, containsSub setting l = false)
    (hline : containsSub setting line = true) :
    upsertLines setting value (pre ++ line :: post) =
      pre ++ (setting ++ '=' :: value) :: post := by
  induction pre with
  | nil => simp [upsertLines, hline]
  | cons p rest ih =>
    have hp : containsSub setting p = false := hpre p (List.mem_cons_self _ _)
    have hr : ∀ x ∈ rest, containsSub setting x = false :=
      fun x hx => hpre x (List.mem_cons_of_mem _ hx)
    simp [upsertLines, hp, ih hr]

theorem upsertLines_ne_nil (setting value : List Char) (ls : List (List Char)) :
    upsertLines setting value ls ≠ [] := by
  cases ls with
  | nil => simp [upsertLines]
  | cons l rest =>
    simp only [upsertLines]
    split <;> simp

theorem upsertLines_no_newline {setting value : List Char} {ls : List (List Char)}
    (hs : '\n' ∉ setting) (hv : '\n' ∉ value) (h : ∀ l ∈ ls, '\n' ∉ l) :
    ∀ l ∈ upsertLines setting value ls, '\n' ∉ l := by
  have hkv : '\n' ∉ setting ++ '=' :: value := by
    intro hmem
    rcases List.mem_append.mp hmem with h1 | h1
    · exact hs h1
    · rcases List.mem_cons.mp h1 with h2 | h2
      · exact absurd h2.symm (by decide)
      · exact hv h2
  induction ls with
  | nil =>
    intro l hl
    simp only [upsertLines, List.mem_singleton] at hl
    exact hl ▸ hkv
  | cons p rest ih =>
    intro l hl
    simp only [upsertLines] at hl
    by_cases hp : containsSub setting p = true
    · rw [if_pos hp] at hl
      rcases List.mem_cons.mp hl with rfl | h2
      · exact hkv
      · exact h l (List.mem_cons_of_mem _ h2)
    · rw [if_neg hp] at hl
      rcases List.mem_cons.mp hl with rfl | h2
      · exact h l (List.mem_cons_self _ _)
      · exact ih (fun x hx => h x (List.mem_cons_of_mem _ hx)) l h2

/-- Re-splitting the document written by `updateConfigSetting` recovers exactly
the upserted line list, provided the key and value are newline-free. -/
theorem splitNl_updateConfigSetting {setting value : List Char} (text : List Char)
    (hs : '\n' ∉ setting) (hv : '\n' ∉ value) :
    splitNl (updateConfigSetting text setting value) =
      upsertLines setting value (splitNl text) := by
  exact splitNl_joinNl (upsertLines_ne_nil _ _ _)
    (upsertLines_no_newline hs hv (splitNl_no_newline text))

theorem upsertLines_idem (setting value : List Char) (ls : List (List Char)) :
    upsertLines setting value (upsertLines setting value ls) =
      upsertLines setting value ls := by
  induction ls with
  | nil => simp [upsertLines, containsSub_kv]
  | cons l rest ih =>
    by_cases hl : containsSub setting l = true
    · simp [upsertLines, hl, containsSub_kv]
    · simp only [upsertLines, if_neg hl, ih]

theorem upsertLines_absorb (setting v₁ v₂ : List Char) (ls : List (List Char)) :
    upsertLines setting v₂ (upsertLines setting v₁ ls) =
      upsertLines setting v₂ ls := by
  induction ls with
  | nil => simp [upsertLines, containsSub_kv]
  | cons l rest ih =>
    by_cases hl : containsSub setting l = true
    · simp [upsertLines, hl, containsSub_kv]
    · simp only [upsertLines, if_neg hl, ih]

theorem filter_defines_eq_nil {setting : List Char} {ls : List (List Char)}
    (h : ∀ l ∈ ls, containsSub setting l = false) :
    ls.filter (fun l => (setting ++ ['=']).isPrefixOf l) = [] := by
  rw [List.filter_eq_nil_iff]
  intro l hl
  intro hdef
  have := @containsSub_of_defines setting l (by simpa using hdef)
  rw [h l hl] at this
  exact Bool.false_ne_true this

theorem defines_kv (setting value : List Char) :
    (setting ++ ['=']).isPrefixOf (setting ++ '=' :: value) = true := by
  rw [List.isPrefixOf_iff_prefix]
  exact ⟨value, by simp⟩

/-- When at most one line of the document contains the key as substring, the
upserted document has exactly one `setting=`-defining line, namely the new one. -/
theorem upsertLines_filter_defines {setting : List Char} (value : List Char)
    {ls : List (List Char)}
    (h : ls.countP (fun l => containsSub setting l) ≤ 1) :
    (upsertLines setting value ls).filter (fun l => (setting ++ ['=']).isPrefixOf l) =
      [setting ++ '=' :: value] := by
  induction ls with
  | nil => simp [upsertLines, defines_kv]
  | cons l rest ih =>
    by_cases hl : containsSub setting l = true
    · have hrest : rest.countP (fun l => containsSub setting l) = 0 := by
        have h' := h
        simp only [List.countP_cons, hl, if_true] at h'
        omega
      have hnone : ∀ x ∈ rest, containsSub setting x = false := by
        intro x hx
        by_contra hcon
        have : rest.countP (fun l => containsSub setting l) ≠ 0 := by
          have : 0 < rest.countP (fun l => containsSub setting l) :=
            List.countP_pos_iff.mpr ⟨x, hx, by simpa using hcon⟩
          omega
        exact this hrest
      simp [upsertLines, hl, List.filter_cons, defines_kv, filter_defines_eq_nil hnone]
    · have hrest : rest.countP (fun l => containsSub setting l) ≤ 1 := by
        have := h
        rw [List.countP_cons] at this
        omega
      have hnotdef : (setting ++ ['=']).isPrefixOf l = false := by
        by_contra hcon
        have := @containsSub_of_defines setting l (by simpa using hcon)
        rw [this] at hl
        exact hl rfl
      simp [upsertLines, hl, List.filter_cons, hnotdef, ih hrest]

/-! ### Claims C2 and C3: the upsert -/

/-- C2 counterexample: in the document `# foo comment` no line defines the key
`foo` (no line starts with `foo=`), so by the claim the upsert should append
`foo=1`, yielding `# foo comment\nfoo=1`.  The code instead substring-matches
the comment line and REPLACES it, yielding `foo=1`. -/
theorem updateConfigSetting_c2_counterexample :
    ((splitNl "# foo comment".data).all fun l => !("foo=".data.isPrefixOf l)) = true ∧
    updateConfigSetting "# foo comment".data "foo".data "1".data ≠
      "# foo comment\nfoo=1".data ∧
    updateConfigSetting "# foo comment".data "foo".data "1".data = "foo=1".data :=
  ⟨by decide, by decide, by decide⟩

/-- C2 (amended): for every document and `(key, value)`, if no line of the
document contains `key` as a substring, `updateConfigSetting` appends a new
`key=value` line at the end; otherwise it replaces the FIRST line containing
`key` as a substring (not necessarily a line defining `key`) in place with
`key=value`, and no other line is changed. -/
theorem updateConfigSetting_upsert_spec (text setting value : List Char) :
    ((∀ l ∈ splitNl text, containsSub setting l = false) →
      updateConfigSetting text setting value =
        joinNl (splitNl text ++ [setting ++ '=' :: value])) ∧
    (∀ pre line post, splitNl text = pre ++ line :: post →
      (∀ l ∈ pre, containsSub setting l = false) →
      containsSub setting line = true →
      updateConfigSetting text setting value =
        joinNl (pre ++ (setting ++ '=' :: value) :: post)) := by
  constructor
  · intro h
    rw [updateConfigSetting, upsertLines_of_not_found _ h]
  · intro pre line post hdec hpre hline
    rw [updateConfigSetting, hdec, upsertLines_of_found _ post hpre hline]

/-- Witness for `updateConfigSetting_upsert_spec`: both branches evaluated on
concrete inputs. -/
theorem updateConfigSetting_upsert_spec_witness :
    updateConfigSetting "a=1".data "b".data "2".data =
      joinNl (splitNl "a=1".data ++ ["b".data ++ '=' :: "2".data]) ∧
    updateConfigSetting "x\nb=1".data "b".data "3".data =
      joinNl (["x".data] ++ ("b".data ++ '=' :: "3".data) :: []) :=
  ⟨(updateConfigSetting_upsert_spec "a=1".data "b".data "2".data).1 (by decide),
   (updateConfigSetting_upsert_spec "x\nb=1".data "b".data "3".data).2
     ["x".data] "b=1".data [] (by decide) (by decide) (by decide)⟩

/-- C3 counterexample.  First conjunct: idempotence fails when the value
contains a newline (applying `(a, "1\nb")` to the empty document once yields
`\na=1\nb`, twice yields `\na=1\nb\nb`).  Second conjunct: applying
`(key,7)` then `(key,9)` to `key=0\nkey=1` leaves TWO lines defining `key`,
not exactly one. -/
theorem updateConfigSetting_c3_counterexample :
    updateConfigSetting (updateConfigSetting "".data "a".data "1\nb".data)
        "a".data "1\nb".data ≠
      updateConfigSetting "".data "a".data "1\nb".data ∧
    (splitNl (updateConfigSetting
        (updateConfigSetting "key=0\nkey=1".data "key".data "7".data)
        "key".data "9".data)).countP (fun l => ("key=".data).isPrefixOf l) = 2 :=
  ⟨by decide, by decide⟩

/-- C3 (amended): provided the key and the values contain no newline,
applying `(key, value)` twice yields the same document as applying it once,
and applying `(key, value₁)` then `(key, value₂)` yields the same document as
applying `(key, value₂)` once; if moreover at most one line of the original
document contains `key` as a substring, the final document has exactly one
line defining `key`, namely `key=value₂`. -/
theorem updateConfigSetting_idem_absorb (text setting v₁ v₂ : List Char)
    (hs : '\n' ∉ setting) (h1 : '\n' ∉ v₁) (h2 : '\n' ∉ v₂) :
    updateConfigSetting (updateConfigSetting text setting v₂) setting v₂ =
      updateConfigSetting text setting v₂ ∧
    updateConfigSetting (updateConfigSetting text setting v₁) setting v₂ =
      updateConfigSetting text setting v₂ ∧
    ((splitNl text).countP (fun l => containsSub setting l) ≤ 1 →
      (splitNl (updateConfigSetting (updateConfigSetting text setting v₁)
          setting v₂)).filter (fun l => (setting ++ ['=']).isPrefixOf l) =
        [setting ++ '=' :: v₂]) := by
  have key1 : splitNl (updateConfigSetting text setting v₁) =
      upsertLines setting v₁ (splitNl text) :=
    splitNl_updateConfigSetting text hs h1
  have key2 : splitNl (updateConfigSetting text setting v₂) =
      upsertLines setting v₂ (splitNl text) :=
    splitNl_updateConfigSetting text hs h2
  refine ⟨?_, ?_, ?_⟩
  · have hdef : updateConfigSetting (updateConfigSetting text setting v₂) setting v₂ =
        joinNl (upsertLines setting v₂
          (splitNl (updateConfigSetting text setting v₂))) := rfl
    rw [hdef, key2, upsertLines_idem]
    rfl
  · have hdef : updateConfigSetting (updateConfigSetting text setting v₁) setting v₂ =
        joinNl (upsertLines setting v₂
          (splitNl (updateConfigSetting text setting v₁))) := rfl
    rw [hdef, key1, upsertLines_absorb]
    rfl
  · intro hcount
    have keyB : splitNl (updateConfigSetting (updateConfigSetting text setting v₁)
          setting v₂) =
        upsertLines setting v₂ (splitNl (updateConfigSetting text setting v₁)) :=
      splitNl_updateConfigSetting _ hs h2
    rw [keyB, key1, upsertLines_absorb]
    exact upsertLines_filter_defines v₂ hcount

/-- Witness for `updateConfigSetting_idem_absorb` at a concrete document. -/
theorem updateConfigSetting_idem_absorb_witness :
    updateConfigSetting (updateConfigSetting "a=1".data "a".data "3".data)
        "a".data "3".data =
      updateConfigSetting "a=1".data "a".data "3".data ∧
    updateConfigSetting (updateConfigSetting "a=1".data "a".data "2".data)
        "a".data "3".data =
      updateConfigSetting "a=1".data "a".data "3".data ∧
    (splitNl (updateConfigSetting (updateConfigSetting "a=1".data "a".data "2".data)
        "a".data "3".data)).filter (fun l => ("a".data ++ ['=']).isPrefixOf l) =
      ["a".data ++ '=' :: "3".data] :=
  have h := updateConfigSetting_idem_absorb "a=1".data "a".data "2".data "3".data
    (by decide) (by decide) (by decide)
  ⟨h.1, h.2.1, h.2.2 (by decide)⟩

/-! ### Claim C6: manifest filtering -/

theorem parsePluginsAux_eq_filter (ls : List (List Char)) :
    parsePluginsAux ls = (ls.map trimWs).filter (fun tr =>
      !tr.isEmpty && !(['['].isPrefixOf tr) && !(['#'].isPrefixOf tr)
        && containsSub ".prx".data tr) := by
  induction ls with
  | nil => simp [parsePluginsAux]
  | cons l rest ih =>
    by_cases hc : (!(trimWs l).isEmpty && !(['['].isPrefixOf (trimWs l))
        && !(['#'].isPrefixOf (trimWs l)) && containsSub ".prx".data (trimWs l)) = true
    · simp only [parsePluginsAux, List.map_cons, List.filter_cons, hc, if_pos, ih]
    · rw [Bool.not_eq_true] at hc
      simp only [parsePluginsAux, List.map_cons, List.filter_cons, hc, ih]

/-- C6: `parsePluginsList` returns exactly the lines that are non-blank after
trimming, do not start with `[` or `#`, and contain the substring `.prx`, each
trimmed, in file order; and on a manifest with a `[default]` header, a `#`
comment, a blank line, and two `.prx` paths it returns exactly those two paths
in order. -/
theorem parsePluginsList_spec :
    (∀ t : List Char, parsePluginsList t =
      ((splitNl t).map trimWs).filter (fun tr =>
        !tr.isEmpty && !(['['].isPrefixOf tr) && !(['#'].isPrefixOf tr)
          && containsSub ".prx".data tr)) ∧
    parsePluginsList
        ("[default]\n# a comment\n\n/data/GoldHEN/plugins/game_patch.prx\n/data/GoldHEN/plugins/cheat_manager.prx".data) =
      ["/data/GoldHEN/plugins/game_patch.prx".data,
       "/data/GoldHEN/plugins/cheat_manager.prx".data] :=
  ⟨fun t => parsePluginsAux_eq_filter (splitNl t), by decide⟩

/-! ### Browser storage model, the fix gate, and the orchestrator -/

/-- Model of one web-storage object (`localStorage` or `sessionStorage`):
a partial map from keys to string values. -/
def Storage : Type := String → Option String

def getItem (s : Storage) (k : String) : Option String := s k

def setItem (s : Storage) (k v : String) : Storage :=
  fun q => if q = k then some v else s q

def removeItem (s : Storage) (k : String) : Storage :=
  fun q => if q = k then none else s q

/-- The pair of browser stores the scripts mutate: the durable store
(`localStorage`) and the session store (`sessionStorage`). -/
structure BrowserState where
  localStorage : Storage
  sessionStorage : Storage

/-- The flag key used by the fix gate. -/
def GOLDHEN_FLAG : String := "goldhen_plugins_fixed"

/-- Embedding of `shouldApplyPluginsFix` (`goldhen_plugins_fix.mjs:261-273`):
false iff the durable or the session store holds the flag `'true'`, checking
the durable store first exactly as the source does. -/
def shouldApplyPluginsFix (st : BrowserState) : Bool :=
  if getItem st.localStorage GOLDHEN_FLAG = some "true" then false
  else if getItem st.sessionStorage GOLDHEN_FLAG = some "true" then false
  else true

/-- Embedding of `markPluginsFixApplied` (`goldhen_plugins_fix.mjs:276-280`). -/
def markPluginsFixApplied (st : BrowserState) : BrowserState :=
  { localStorage := setItem st.localStorage GOLDHEN_FLAG "true"
    sessionStorage := setItem st.sessionStorage GOLDHEN_FLAG "true" }

/-- Embedding of `resetPluginsFixFlag` (`goldhen_plugins_fix.mjs:283-287`). -/
def resetPluginsFixFlag (st : BrowserState) : BrowserState :=
  { localStorage := removeItem st.localStorage GOLDHEN_FLAG
    sessionStorage := removeItem st.sessionStorage GOLDHEN_FLAG }

/-- The store-mutating operations that occur anywhere in the three source
files: `markPluginsFixApplied`, `resetPluginsFixFlag`, the
`sessionStorage.setItem('goldhen_fix_message', …)` of `displaySuccessMessage`,
and the `removeItem('ExploitLoaded')` pair of `forceReapplyFix`.  Reachable
flag-store states are those produced by sequences of these operations. -/
inductive FlagOp where
  | mark
  | reset
  | setFixMessage (m : String)
  | clearExploitLoaded
deriving DecidableEq

def applyFlagOp (st : BrowserState) : FlagOp → BrowserState
  | .mark => markPluginsFixApplied st
  | .reset => resetPluginsFixFlag st
  | .setFixMessage m =>
      { st with sessionStorage := setItem st.sessionStorage "goldhen_fix_message" m }
  | .clearExploitLoaded =>
      { localStorage := removeItem st.localStorage "ExploitLoaded"
        sessionStorage := removeItem st.sessionStorage "ExploitLoaded" }

def applyFlagOps (st : BrowserState) : List FlagOp → BrowserState
  | [] => st
  | op :: rest => applyFlagOps (applyFlagOp st op) rest

/-- Modelled from the spec: the query-order-swapped variant of the gate
("independent of which of the two backing stores is queried first"), checking
the session store before the durable store. -/
def shouldApplySessionFirst (st : BrowserState) : Bool :=
  if getItem st.sessionStorage GOLDHEN_FLAG = some "true" then false
  else if getItem st.localStorage GOLDHEN_FLAG = some "true" then false
  else true

theorem flagOp_preserves_local_flag {st : BrowserState}
    (h : getItem st.localStorage GOLDHEN_FLAG = some "true") :
    ∀ op : FlagOp, op ≠ FlagOp.reset →
      getItem (applyFlagOp st op).localStorage GOLDHEN_FLAG = some "true" := by
  intro op hop
  cases op with
  | mark => simp [applyFlagOp, markPluginsFixApplied, getItem, setItem]
  | reset => exact absurd rfl hop
  | setFixMessage m => exact h
  | clearExploitLoaded =>
    show (if GOLDHEN_FLAG = "ExploitLoaded" then none
      else st.localStorage GOLDHEN_FLAG) = some "true"
    rw [if_neg (by decide)]
    exact h

theorem local_flag_after_ops :
    ∀ (ops : List FlagOp) (st : BrowserState), FlagOp.reset ∉ ops →
      getItem st.localStorage GOLDHEN_FLAG = some "true" →
      getItem (applyFlagOps st ops).localStorage GOLDHEN_FLAG = some "true"
  | [], _, _, h => h
  | op :: rest, st, hmem, h => by
    have hop : op ≠ FlagOp.reset := fun he => hmem (he ▸ List.mem_cons_self _ _)
    have hrest : FlagOp.reset ∉ rest := fun hm => hmem (List.mem_cons_of_mem _ hm)
    exact local_flag_after_ops rest _ hrest (flagOp_preserves_local_flag h op hop)

/-- C4: after `markPluginsFixApplied`, `shouldApplyPluginsFix` stays false
across every sequence of the repository's store operations that does not
include `resetPluginsFixFlag`; after a reset it returns true again; it is
false iff the durable OR the session store holds the flag `'true'`; and its
value is independent of which store is queried first. -/
theorem shouldApplyPluginsFix_gate :
    (∀ (st : BrowserState) (ops : List FlagOp), FlagOp.reset ∉ ops →
      shouldApplyPluginsFix (applyFlagOps (markPluginsFixApplied st) ops) = false) ∧
    (∀ st : BrowserState, shouldApplyPluginsFix (resetPluginsFixFlag st) = true) ∧
    (∀ st : BrowserState, shouldApplyPluginsFix st = false ↔
      (getItem st.localStorage GOLDHEN_FLAG = some "true" ∨
       getItem st.sessionStorage GOLDHEN_FLAG = some "true")) ∧
    (∀ st : BrowserState, shouldApplyPluginsFix st = shouldApplySessionFirst st) := by
  refine ⟨?_, ?_, ?_, ?_⟩
  · intro st ops hops
    have hmark : getItem (markPluginsFixApplied st).localStorage GOLDHEN_FLAG =
        some "true" := by
      simp [markPluginsFixApplied, getItem, setItem]
    have := local_flag_after_ops ops (markPluginsFixApplied st) hops hmark
    simp [shouldApplyPluginsFix, this]
  · intro st
    simp [shouldApplyPluginsFix, resetPluginsFixFlag, getItem, removeItem]
  · intro st
    by_cases h1 : getItem st.localStorage GOLDHEN_FLAG = some "true" <;>
      by_cases h2 : getItem st.sessionStorage GOLDHEN_FLAG = some "true" <;>
        simp [shouldApplyPluginsFix, h1, h2]
  · intro st
    by_cases h1 : getItem st.localStorage GOLDHEN_FLAG = some "true" <;>
      by_cases h2 : getItem st.sessionStorage GOLDHEN_FLAG = some "true" <;>
        simp [shouldApplyPluginsFix, shouldApplySessionFirst, h1, h2]

/-- Browser state with both stores empty. -/
def emptyBrowserState : BrowserState :=
  { localStorage := fun _ => none, sessionStorage := fun _ => none }

/-- Witness for `shouldApplyPluginsFix_gate`: a concrete run of mark followed
by reset-free operations. -/
theorem shouldApplyPluginsFix_gate_witness :
    FlagOp.reset ∉ [FlagOp.clearExploitLoaded, FlagOp.setFixMessage "done"] ∧
    shouldApplyPluginsFix (applyFlagOps (markPluginsFixApplied emptyBrowserState)
      [FlagOp.clearExploitLoaded, FlagOp.setFixMessage "done"]) = false :=
  ⟨by decide, shouldApplyPluginsFix_gate.1 emptyBrowserState
    [FlagOp.clearExploitLoaded, FlagOp.setFixMessage "done"] (by decide)⟩

/-! ### Claim C1: the non-skipped run of the orchestrator -/

/-- One verification check of `verifyFixApplication`. -/
structure VerCheck where
  name : String
  success : Bool
  details : String

/-- Result object of `verifyFixApplication`. -/
structure VerificationResult where
  success : Bool
  checks : List VerCheck
  issues : List VerCheck

/-- Embedding of `verifyFixApplication` (`auto_goldhen_fix.mjs:115-159`): the
three storage checks, aggregated with every-check-passes and the failing
checks collected as issues.  Storage reads never throw, so the catch branch of
the source is unreachable in this model. -/
def verifyFixApplication (st : BrowserState) : VerificationResult :=
  let localStorageFlag := getItem st.localStorage GOLDHEN_FLAG == some "true"
  let sessionStorageFlag := getItem st.sessionStorage GOLDHEN_FLAG == some "true"
  let goldhenLoaded := getItem st.localStorage "ExploitLoaded" == some "yes"
  let checks : List VerCheck :=
    [{ name := "LocalStorage flag", success := localStorageFlag,
       details := if localStorageFlag then "Set correctly" else "Not set" },
     { name := "SessionStorage flag", success := sessionStorageFlag,
       details := if sessionStorageFlag then "Set correctly" else "Not set" },
     { name := "GoldHEN loaded", success := goldhenLoaded,
       details := if goldhenLoaded then "Loaded successfully" else "Not loaded" }]
  { success := checks.all (fun c => c.success)
    checks := checks
    issues := checks.filter (fun c => !c.success) }

/-- Outcomes of the syscall-backed steps of `autoFixGoldHEN`
(`fixGoldHENPlugins` and `optimizeGoldHENConfig`).  Those steps only issue
`chain.sysi` calls and never touch the two web stores, so for the storage
behaviour they are abstracted by their boolean outcomes. -/
structure ChainEnv where
  fixGoldHENPluginsResult : Bool
  optimizeResult : Bool

/-- Result object of `autoFixGoldHEN` (fields used by the claims). -/
structure AutoFixResult where
  success : Bool
  skipped : Bool
  pluginsFix : Bool
  issues : List VerCheck

/-- Message stored by `displaySuccessMessage` (content abbreviated; only the
key matters to the claims). -/
def goldhenFixMessage : String := "GoldHEN Auto-Fix Applied Successfully"

/-- Embedding of `displaySuccessMessage` (`auto_goldhen_fix.mjs:162-185`). -/
def displaySuccessMessage (st : BrowserState) : BrowserState :=
  { st with sessionStorage :=
      setItem st.sessionStorage "goldhen_fix_message" goldhenFixMessage }

/-- Embedding of `autoFixGoldHEN` (`auto_goldhen_fix.mjs:31-87`), returning
the result object, the final store state, and whether `markPluginsFixApplied`
was called.  The sleeps and the syscall-backed steps do not read or write the
stores; the verification step runs before any marking, exactly as in the
source. -/
def autoFixGoldHEN (env : ChainEnv) (st : BrowserState) :
    AutoFixResult × BrowserState × Bool :=
  if !(shouldApplyPluginsFix st) then
    ({ success := true, skipped := true, pluginsFix := false, issues := [] }, st, false)
  else
    let fixResult := env.fixGoldHENPluginsResult
    let verifyResult := verifyFixApplication st
    if verifyResult.success then
      let st' := displaySuccessMessage (markPluginsFixApplied st)
      ({ success := true, skipped := false, pluginsFix := fixResult, issues := [] },
        st', true)
    else
      ({ success := false, skipped := false, pluginsFix := fixResult,
         issues := verifyResult.issues }, st, false)

/-- C1: whenever the gate lets the fix proceed (`shouldApplyPluginsFix` is
true), `autoFixGoldHEN` returns `success = false` (not skipped) and never
calls `markPluginsFixApplied`: verification reads the very flags that only
the marking step would set, and it runs before marking. -/
theorem autoFixGoldHEN_nonskipped_fails (env : ChainEnv) (st : BrowserState)
    (h : shouldApplyPluginsFix st = true) :
    (autoFixGoldHEN env st).1.success = false ∧
    (autoFixGoldHEN env st).1.skipped = false ∧
    (autoFixGoldHEN env st).2.2 = false := by
  have hl : ¬ getItem st.localStorage GOLDHEN_FLAG = some "true" := by
    intro hc
    rw [shouldApplyPluginsFix, if_pos hc] at h
    exact Bool.false_ne_true h
  have hflag : (getItem st.localStorage GOLDHEN_FLAG == some "true") = false :=
    beq_eq_false_iff_ne.mpr hl
  have hv : (verifyFixApplication st).success = false := by
    simp [verifyFixApplication, hflag]
  rw [autoFixGoldHEN]
  rw [h]
  simp only [Bool.not_true, Bool.false_eq_true, if_false]
  rw [if_neg (by rw [hv]; exact Bool.false_ne_true)]
  exact ⟨rfl, rfl, rfl⟩

/-- Witness for `autoFixGoldHEN_nonskipped_fails` on empty stores. -/
theorem autoFixGoldHEN_nonskipped_fails_witness :
    shouldApplyPluginsFix emptyBrowserState = true ∧
    ((autoFixGoldHEN ⟨true, true⟩ emptyBrowserState).1.success = false ∧
     (autoFixGoldHEN ⟨true, true⟩ emptyBrowserState).1.skipped = false ∧
     (autoFixGoldHEN ⟨true, true⟩ emptyBrowserState).2.2 = false) :=
  ⟨by decide, autoFixGoldHEN_nonskipped_fails ⟨true, true⟩ emptyBrowserState (by decide)⟩

/-! ### Claims C7 and C8: the syscall-level behaviour of `modifyGoldHENSetting` -/

/-- Result of one `chain.sysi` call: a returned integer, or a raised error. -/
inductive SysResult where
  | ok (v : Int)
  | err
deriving DecidableEq

/-- Oracle for the syscalls issued by one `modifyGoldHENSetting` invocation:
the outcome of each call in program order, plus the text delivered by a
successful `read` (the first `bytes_read` bytes of the file). -/
structure FileEnv where
  openRes : SysResult
  readRes : SysResult
  readText : List Char
  lseekRes : SysResult
  ftruncateRes : SysResult
  writeRes : SysResult
  closeRes : SysResult

/-- One syscall issued by `modifyGoldHENSetting`, as recorded in its trace. -/
inductive SysCall where
  | openCall
  | readCall
  | lseekCall
  | ftruncateCall
  | writeCall (content : List Char)
  | closeCall
deriving DecidableEq

def isWriteCall : SysCall → Bool
  | .writeCall _ => true
  | _ => false

/-- Embedding of `modifyGoldHENSetting` (`goldhen_plugins_fix.mjs:105-142`),
returning the JS boolean result and the trace of issued syscalls.  The
source wraps the body in `try`/`catch` with NO `finally`: a call that raises
(`SysResult.err`) jumps to the catch, which logs and returns `false` without
issuing any further call — in particular without `close`.  When
`bytes_read > 0` the file is rewritten with the upserted document; otherwise
the whole rewrite block is skipped and the file is only closed. -/
def modifyGoldHENSetting (env : FileEnv) (setting value : List Char) :
    Bool × List SysCall :=
  match env.openRes with
  | .err => (false, [SysCall.openCall])
  | .ok fd =>
    if fd < 0 then (false, [SysCall.openCall])
    else
      match env.readRes with
      | .err => (false, [SysCall.openCall, SysCall.readCall])
      | .ok bytes_read =>
        if bytes_read > 0 then
          let updated_config := updateConfigSetting env.readText setting value
          match env.lseekRes with
          | .err => (false, [SysCall.openCall, SysCall.readCall, SysCall.lseekCall])
          | .ok _ =>
            match env.ftruncateRes with
            | .err => (false, [SysCall.openCall, SysCall.readCall, SysCall.lseekCall,
                SysCall.ftruncateCall])
            | .ok _ =>
              match env.writeRes with
              | .err => (false, [SysCall.openCall, SysCall.readCall, SysCall.lseekCall,
                  SysCall.ftruncateCall, SysCall.writeCall updated_config])
              | .ok _ =>
                match env.closeRes with
                | .err => (false, [SysCall.openCall, SysCall.readCall, SysCall.lseekCall,
                    SysCall.ftruncateCall, SysCall.writeCall updated_config,
                    SysCall.closeCall])
                | .ok _ => (true, [SysCall.openCall, SysCall.readCall, SysCall.lseekCall,
                    SysCall.ftruncateCall, SysCall.writeCall updated_config,
                    SysCall.closeCall])
        else
          match env.closeRes with
          | .err => (false, [SysCall.openCall, SysCall.readCall, SysCall.closeCall])
          | .ok _ => (true, [SysCall.openCall, SysCall.readCall, SysCall.closeCall])

/-- Oracle in which `open` succeeds with descriptor 3 and `read` raises. -/
def readThrowsEnv : FileEnv :=
  { openRes := SysResult.ok 3, readRes := SysResult.err, readText := []
    lseekRes := SysResult.ok 0, ftruncateRes := SysResult.ok 0
    writeRes := SysResult.ok 0, closeRes := SysResult.ok 0 }

/-- C7: when `open` succeeds (descriptor 3) and `read` raises, the catch
branch returns `false` without ever issuing `close` — the descriptor leaks,
contrary to the close-on-every-exit-path requirement. -/
theorem modifyGoldHENSetting_read_throws_leaks :
    modifyGoldHENSetting readThrowsEnv "enable_plugins_loader".data "0".data =
      (false, [SysCall.openCall, SysCall.readCall]) ∧
    SysCall.closeCall ∉
      (modifyGoldHENSetting readThrowsEnv "enable_plugins_loader".data "0".data).2 :=
  ⟨by decide, by decide⟩

/-- Oracle in which `open` succeeds with descriptor 3 and `read` returns 0. -/
def emptyReadEnv : FileEnv :=
  { openRes := SysResult.ok 3, readRes := SysResult.ok 0, readText := []
    lseekRes := SysResult.ok 0, ftruncateRes := SysResult.ok 0
    writeRes := SysResult.ok 0, closeRes := SysResult.ok 0 }

/-- C8 counterexample: when `open` succeeds but `read` returns zero bytes, the
trace is exactly `open, read, close` — no `lseek`, `ftruncate` or `write` is
issued, so the file is NOT rewritten with `key=value`; the function returns
`true` leaving the file unchanged. -/
theorem modifyGoldHENSetting_c8_counterexample :
    modifyGoldHENSetting emptyReadEnv "enable_plugins_loader".data "0".data =
      (true, [SysCall.openCall, SysCall.readCall, SysCall.closeCall]) ∧
    ((modifyGoldHENSetting emptyReadEnv "enable_plugins_loader".data "0".data).2.all
      (fun c => !isWriteCall c)) = true :=
  ⟨by decide, by decide⟩

/-- C8 (amended): in every invocation in which `open` succeeds with a
non-negative descriptor and `read` returns at most zero bytes, the rewrite is
skipped entirely: the trace is exactly `open, read, close` and contains no
`write`, so the file content is left unchanged; and whenever the `close` call
does not raise, the function returns `true`. -/
theorem modifyGoldHENSetting_empty_read (env : FileEnv) (setting value : List Char)
    (fd n : Int) (hopen : env.openRes = SysResult.ok fd) (hfd : 0 ≤ fd)
    (hread : env.readRes = SysResult.ok n) (hn : n ≤ 0) :
    (modifyGoldHENSetting env setting value).2 =
      [SysCall.openCall, SysCall.readCall, SysCall.closeCall] ∧
    ((modifyGoldHENSetting env setting value).2.all (fun c => !isWriteCall c)) = true ∧
    (∀ v : Int, env.closeRes = SysResult.ok v →
      (modifyGoldHENSetting env setting value).1 = true) := by
  have hfd' : ¬ fd < 0 := by omega
  have hn' : ¬ n > 0 := by omega
  cases hclose : env.closeRes with
  | ok v =>
    refine ⟨?_, ?_, ?_⟩ <;>
      simp [modifyGoldHENSetting, hopen, hread, hfd', hn', hclose, isWriteCall]
  | err =>
    refine ⟨?_, ?_, ?_⟩
    · simp [modifyGoldHENSetting, hopen, hread, hfd', hn', hclose, isWriteCall]
    · simp [modifyGoldHENSetting, hopen, hread, hfd', hn', hclose, isWriteCall]
    · intro v hv
      exact SysResult.noConfusion hv

/-- Witness for `modifyGoldHENSetting_empty_read` at the concrete oracle,
exercising the close-succeeds hypothesis as well. -/
theorem modifyGoldHENSetting_empty_read_witness :
    (modifyGoldHENSetting emptyReadEnv "k".data "v".data).2 =
      [SysCall.openCall, SysCall.readCall, SysCall.closeCall] ∧
    ((modifyGoldHENSetting emptyReadEnv "k".data "v".data).2.all
      (fun c => !isWriteCall c)) = true ∧
    (modifyGoldHENSetting emptyReadEnv "k".data "v".data).1 = true :=
  have h := modifyGoldHENSetting_empty_read emptyReadEnv "k".data "v".data 3 0
    rfl (by decide) rfl (by decide)
  ⟨h.1, h.2.1, h.2.2 0 rfl⟩

/-! ### Claim C10: ordering of the reactivation sequence -/

/-- One observable operation of the reactivation sequence, at the step
granularity of `reactivatePlugins` / `forcePluginsReload`. -/
inductive FixEvent where
  | setSetting (setting value : List Char)
  | delayMs (ms : Nat)
  | unloadAttempt (plugin : List Char)
  | unloadCall (plugin : List Char)
  | openManifest
  | readManifest
  | closeManifest
  | loadUnit (path : List Char)
deriving DecidableEq

def isSetSetting : FixEvent → Bool
  | .setSetting _ _ => true
  | _ => false

def isUnloadAttempt : FixEvent → Bool
  | .unloadAttempt _ => true
  | _ => false

def isLoadUnit : FixEvent → Bool
  | .loadUnit _ => true
  | _ => false

/-- Oracle for the syscalls of `forcePluginsReload`: the `dynlib_get_list`
result per plugin name (an error models a raised exception, which the source
swallows per plugin), and the open/read results and text for `plugins.ini`. -/
structure ReloadEnv where
  getList : List Char → SysResult
  manifestOpenFd : Int
  manifestBytesRead : Int
  manifestText : List Char

/-- The fixed unload set of `unloadPlugins` (`goldhen_plugins_fix.mjs:192-196`). -/
def plugins_to_unload : List (List Char) :=
  ["game_patch.prx".data, "cheat_manager.prx".data, "browser_patch.prx".data]

/-- One iteration of the `unloadPlugins` loop
(`goldhen_plugins_fix.mjs:198-209`): look the plugin up (the attempt), and
unload it only when a positive handle came back; errors are swallowed. -/
def unloadOne (env : ReloadEnv) (plugin : List Char) : List FixEvent :=
  FixEvent.unloadAttempt plugin ::
    (match env.getList plugin with
     | SysResult.ok handle => if handle > 0 then [FixEvent.unloadCall plugin] else []
     | SysResult.err => [])

def unloadPluginsAux (env : ReloadEnv) : List (List Char) → List FixEvent
  | [] => []
  | p :: rest => unloadOne env p ++ unloadPluginsAux env rest

/-- Embedding of `unloadPlugins` (`goldhen_plugins_fix.mjs:190-210`). -/
def unloadPlugins (env : ReloadEnv) : List FixEvent :=
  unloadPluginsAux env plugins_to_unload

/-- Embedding of `loadPlugins` (`goldhen_plugins_fix.mjs:213-243`): open the
manifest; when the descriptor is non-negative, read it and close it, then — if
anything was read — issue one `loadUnit` per parsed manifest entry, in order. -/
def loadPlugins (env : ReloadEnv) : List FixEvent :=
  FixEvent.openManifest ::
    (if env.manifestOpenFd ≥ 0 then
      FixEvent.readManifest :: FixEvent.closeManifest ::
        (if env.manifestBytesRead > 0 then
          (parsePluginsList env.manifestText).map FixEvent.loadUnit
        else [])
    else [])

/-- Embedding of `forcePluginsReload` (`goldhen_plugins_fix.mjs:167-187`):
unload the fixed set, wait 200ms, reload from the manifest, wait 200ms. -/
def forcePluginsReload (env : ReloadEnv) : List FixEvent :=
  unloadPlugins env ++ [FixEvent.delayMs 200] ++ loadPlugins env ++ [FixEvent.delayMs 200]

/-- One entry of the `fix_sequence` payload (`goldhen_plugins_fix.mjs:61-70`). -/
inductive FixOp where
  | set (setting value : List Char)
  | delay (ms : Nat)
deriving DecidableEq

/-- The `fix_sequence` payload of `createPluginFixPayload`
(`goldhen_plugins_fix.mjs:61-70`). -/
def fix_sequence : List FixOp :=
  [FixOp.set "enable_plugins_loader".data "0".data,
   FixOp.set "enable_game_patch_plugin".data "0".data,
   FixOp.delay 100,
   FixOp.set "enable_plugins_loader".data "1".data,
   FixOp.set "enable_game_patch_plugin".data "1".data]

/-- The loop of `reactivatePlugins` over the payload operations
(`goldhen_plugins_fix.mjs:84-96`): a delay entry sleeps; a setting entry
modifies the setting and then sleeps 50ms. -/
def runFixOps : List FixOp → List FixEvent
  | [] => []
  | FixOp.delay ms :: rest => FixEvent.delayMs ms :: runFixOps rest
  | FixOp.set k v :: rest =>
      FixEvent.setSetting k v :: FixEvent.delayMs 50 :: runFixOps rest

/-- Embedding of `reactivatePlugins` (`goldhen_plugins_fix.mjs:81-102`): run
the payload operations in order, then force the plugins reload. -/
def reactivatePlugins (env : ReloadEnv) : List FixEvent :=
  runFixOps fix_sequence ++ forcePluginsReload env

theorem unloadOne_filter_attempt (env : ReloadEnv) (p : List Char) :
    (unloadOne env p).filter isUnloadAttempt = [FixEvent.unloadAttempt p] := by
  rw [unloadOne]
  cases env.getList p with
  | ok v =>
    by_cases h : v > 0 <;> simp [h, isUnloadAttempt]
  | err => simp [isUnloadAttempt]

theorem unloadOne_no_load (env : ReloadEnv) (p : List Char) :
    ∀ e ∈ unloadOne env p, isLoadUnit e = false := by
  intro e he
  rw [unloadOne] at he
  rcases List.mem_cons.mp he with rfl | he'
  · rfl
  · cases hg : env.getList p with
    | ok v =>
      rw [hg] at he'
      have he'' : e ∈ (if v > 0 then [FixEvent.unloadCall p] else []) := he'
      by_cases h : v > 0
      · rw [if_pos h] at he''
        rcases List.mem_singleton.mp he'' with rfl
        rfl
      · rw [if_neg h] at he''
        exact absurd he'' (List.not_mem_nil e)
    | err =>
      rw [hg] at he'
      have he'' : e ∈ ([] : List FixEvent) := he'
      exact absurd he'' (List.not_mem_nil e)

theorem unloadOne_filter_set (env : ReloadEnv) (p : List Char) :
    (unloadOne env p).filter isSetSetting = [] := by
  rw [unloadOne]
  cases env.getList p with
  | ok v =>
    by_cases h : v > 0 <;> simp [h, isSetSetting]
  | err => simp [isSetSetting]

theorem map_loadUnit_filter_eq_nil (P : FixEvent → Bool)
    (h : ∀ x, P (FixEvent.loadUnit x) = false) (l : List (List Char)) :
    (l.map FixEvent.loadUnit).filter P = [] := by
  induction l with
  | nil => simp
  | cons x rest ih => simp [h, ih]

theorem loadPlugins_no_unload (env : ReloadEnv) :
    ∀ e ∈ loadPlugins env, isUnloadAttempt e = false := by
  intro e he
  rw [loadPlugins] at he
  rcases List.mem_cons.mp he with rfl | he'
  · rfl
  · by_cases h1 : env.manifestOpenFd ≥ 0
    · rw [if_pos h1] at he'
      rcases List.mem_cons.mp he' with rfl | he'' ; · rfl
      rcases List.mem_cons.mp he'' with rfl | he₃ ; · rfl
      by_cases h2 : env.manifestBytesRead > 0
      · rw [if_pos h2] at he₃
        obtain ⟨x, _, rfl⟩ := List.mem_map.mp he₃
        rfl
      · rw [if_neg h2] at he₃
        exact absurd he₃ (List.not_mem_nil e)
    · rw [if_neg h1] at he'
      exact absurd he' (List.not_mem_nil e)

theorem loadPlugins_filter_set (env : ReloadEnv) :
    (loadPlugins env).filter isSetSetting = [] := by
  rw [loadPlugins]
  by_cases h1 : env.manifestOpenFd ≥ 0
  · by_cases h2 : env.manifestBytesRead > 0
    · simp [h1, h2, isSetSetting,
        map_loadUnit_filter_eq_nil isSetSetting (fun _ => rfl)]
    · simp [h1, h2, isSetSetting]
  · simp [h1, isSetSetting]

theorem runFixOps_no_load : ∀ e ∈ runFixOps fix_sequence, isLoadUnit e = false := by
  decide

theorem delay_no_load : ∀ e ∈ [FixEvent.delayMs 200], isLoadUnit e = false := by
  decide

/-- Generic ordering principle: if one predicate only holds inside the first
part of a concatenation and another only inside the second part, then every
index satisfying the first precedes every index satisfying the second. -/
theorem getD_partition_lt {α : Type} {P Q : α → Bool} {t₁ t₂ : List α} {d : α}
    (h₁ : ∀ e ∈ t₁, Q e = false) (h₂ : ∀ e ∈ t₂, P e = false)
    (hP : P d = false) (_hQ : Q d = false) :
    ∀ i j, P ((t₁ ++ t₂).getD i d) = true → Q ((t₁ ++ t₂).getD j d) = true → i < j := by
  intro i j hPi hQj
  have hilen : i < t₁.length := by
    by_contra hge
    push_neg at hge
    by_cases htot : i < (t₁ ++ t₂).length
    · have hmem : (t₁ ++ t₂).getD i d ∈ t₂ := by
        rw [List.getD_eq_getElem?_getD, List.getElem?_append, if_neg (by omega)]
        have hlt : i - t₁.length < t₂.length := by
          rw [List.length_append] at htot
          omega
        rw [List.getElem?_eq_getElem hlt]
        exact List.getElem_mem hlt
      rw [h₂ _ hmem] at hPi
      exact Bool.false_ne_true hPi
    · push_neg at htot
      rw [List.getD_eq_default _ _ htot, hP] at hPi
      exact Bool.false_ne_true hPi
  have hjlen : t₁.length ≤ j := by
    by_contra hlt
    push_neg at hlt
    have hmem : (t₁ ++ t₂).getD j d ∈ t₁ := by
      rw [List.getD_eq_getElem?_getD, List.getElem?_append, if_pos hlt,
        List.getElem?_eq_getElem hlt]
      exact List.getElem_mem hlt
    rw [h₁ _ hmem] at hQj
    exact Bool.false_ne_true hQj
  omega

/-- C10: in every execution of the reactivation sequence the four setting
operations occur in exactly the payload order, the three unload attempts occur
in exactly the fixed unload order, and every unload attempt precedes every
`loadUnit` call for a manifest entry. -/
theorem reactivatePlugins_order (env : ReloadEnv) :
    (reactivatePlugins env).filter isSetSetting =
      [FixEvent.setSetting "enable_plugins_loader".data "0".data,
       FixEvent.setSetting "enable_game_patch_plugin".data "0".data,
       FixEvent.setSetting "enable_plugins_loader".data "1".data,
       FixEvent.setSetting "enable_game_patch_plugin".data "1".data] ∧
    (reactivatePlugins env).filter isUnloadAttempt =
      [FixEvent.unloadAttempt "game_patch.prx".data,
       FixEvent.unloadAttempt "cheat_manager.prx".data,
       FixEvent.unloadAttempt "browser_patch.prx".data] ∧
    ∀ i j : Nat,
      isUnloadAttempt ((reactivatePlugins env).getD i (FixEvent.delayMs 0)) = true →
      isLoadUnit ((reactivatePlugins env).getD j (FixEvent.delayMs 0)) = true →
      i < j := by
  have hshape : reactivatePlugins env =
      (runFixOps fix_sequence ++ unloadPlugins env ++ [FixEvent.delayMs 200]) ++
        (loadPlugins env ++ [FixEvent.delayMs 200]) := by
    simp [reactivatePlugins, forcePluginsReload, List.append_assoc]
  refine ⟨?_, ?_, ?_⟩
  · rw [reactivatePlugins, forcePluginsReload]
    rw [unloadPlugins, plugins_to_unload]
    simp only [unloadPluginsAux, List.filter_append, unloadOne_filter_set,
      loadPlugins_filter_set]
    simp [isSetSetting]
    decide
  · rw [reactivatePlugins, forcePluginsReload]
    rw [unloadPlugins, plugins_to_unload]
    simp only [unloadPluginsAux, List.filter_append, unloadOne_filter_attempt]
    have h1 : (runFixOps fix_sequence).filter isUnloadAttempt = [] := by decide
    have h2 : (loadPlugins env).filter isUnloadAttempt = [] :=
      List.filter_eq_nil_iff.mpr
        (fun e he => by simp [loadPlugins_no_unload env e he])
    have h3 : List.filter isUnloadAttempt [FixEvent.delayMs 200] = [] := by decide
    simp [h1, h2, h3]
  · rw [hshape]
    refine getD_partition_lt ?_ ?_ rfl rfl
    · intro e he
      rcases List.mem_append.mp he with he' | he₂
      · rcases List.mem_append.mp he' with h | h
        · exact runFixOps_no_load e h
        · rw [unloadPlugins, plugins_to_unload] at h
          simp only [unloadPluginsAux, List.append_nil, List.mem_append] at h
          rcases h with h | h | h
          · exact unloadOne_no_load env _ e h
          · exact unloadOne_no_load env _ e h
          · exact unloadOne_no_load env _ e h
      · rcases List.mem_singleton.mp he₂ with rfl
        rfl
    · intro e he
      rcases List.mem_append.mp he with he' | he₂
      · exact loadPlugins_no_unload env e he'
      · rcases List.mem_singleton.mp he₂ with rfl
        rfl

/-- Concrete reload oracle: every plugin resolves to handle 1, the manifest
opens on descriptor 3 and yields one `.prx` path. -/
def reloadEnvExample : ReloadEnv :=
  { getList := fun _ => SysResult.ok 1
    manifestOpenFd := 3
    manifestBytesRead := 40
    manifestText := "/data/GoldHEN/plugins/game_patch.prx".data }

/-- Witness for `reactivatePlugins_order`: in the concrete trace the unload
attempt at index 9 precedes the manifest load at index 19. -/
theorem reactivatePlugins_order_witness :
    isUnloadAttempt ((reactivatePlugins reloadEnvExample).getD 9
      (FixEvent.delayMs 0)) = true ∧
    isLoadUnit ((reactivatePlugins reloadEnvExample).getD 19
      (FixEvent.delayMs 0)) = true ∧
    9 < 19 :=
  ⟨by decide, by decide,
    (reactivatePlugins_order reloadEnvExample).2.2 9 19 (by decide) (by decide)⟩

/-! ### Claim C5: the validation score formula -/

/-- Report of `validateGoldHENConfig` (`goldhen_config_manager` source). -/
structure ValidationReport where
  isValid : Bool
  issues : List String
  score : Int
deriving DecidableEq

/-- Embedding of `validateGoldHENConfig` (the config-manager source,
`validateGoldHENConfig`): four substring checks push issue strings in order
(three required settings must be present, the homebrew-blocker line must be
absent), then `score = max(0, 100 - 20 * issues.length)`. -/
def validateGoldHENConfig (config_text : List Char) : ValidationReport :=
  let issues : List String :=
    (if !containsSub "enable_plugins_loader=1".data config_text then
      ["Plugins loader disabled - games may not work properly"] else []) ++
    (if !containsSub "enable_game_patch_plugin=1".data config_text then
      ["Game patch plugin disabled - compatibility issues expected"] else []) ++
    (if containsSub "enable_homebrew_blocker=1".data config_text then
      ["Homebrew blocker enabled - may cause conflicts"] else []) ++
    (if !containsSub "enable_ftp_server=1".data config_text then
      ["FTP server disabled - remote management unavailable"] else [])
  { isValid := issues.isEmpty
    issues := issues
    score := max 0 (100 - 20 * (issues.length : Int)) }

/-- Modelled from the spec: how many of the three REQUIRED settings (loader
enabled, patch plugin enabled, FTP server enabled) the document is missing. -/
def requiredMissingCount (config_text : List Char) : Nat :=
  (if !containsSub "enable_plugins_loader=1".data config_text then 1 else 0) +
  (if !containsSub "enable_game_patch_plugin=1".data config_text then 1 else 0) +
  (if !containsSub "enable_ftp_server=1".data config_text then 1 else 0)

/-- Modelled from the spec: how many of the four checks of `validate` the
document violates (the three required settings plus the blocker prohibition). -/
def violatedChecks (config_text : List Char) : Nat :=
  requiredMissingCount config_text +
  (if containsSub "enable_homebrew_blocker=1".data config_text then 1 else 0)

/-- C5 counterexample: this document misses ZERO of the required settings, yet
its score is 80 because the homebrew-blocker check — which is not a required
setting but a prohibition — also contributes an issue; so "missing exactly k
required settings implies score = max(0, 100 - 20k)" fails at k = 0. -/
theorem validateGoldHENConfig_c5_counterexample :
    requiredMissingCount
      "enable_plugins_loader=1\nenable_game_patch_plugin=1\nenable_ftp_server=1\nenable_homebrew_blocker=1".data = 0 ∧
    (validateGoldHENConfig
      "enable_plugins_loader=1\nenable_game_patch_plugin=1\nenable_ftp_server=1\nenable_homebrew_blocker=1".data).score = 80 ∧
    (80 : Int) ≠ max 0 (100 - 20 * ((0 : Nat) : Int)) :=
  ⟨by decide, by decide, by decide⟩

/-- C5 (amended): `validateGoldHENConfig` returns
`score = max(0, 100 - 20*len(issues))` where the issues are the violated
checks among the three required settings AND the blocker prohibition; for a
document missing exactly `k` required settings and not containing the blocker
line the score is `max(0, 100 - 20k)`; `score = 100` iff `issues` is empty;
and `isValid` holds iff `issues` is empty. -/
theorem validateGoldHENConfig_score (t : List Char) :
    (validateGoldHENConfig t).score =
      max 0 (100 - 20 * (((validateGoldHENConfig t).issues.length : Int))) ∧
    (validateGoldHENConfig t).issues.length = violatedChecks t ∧
    (containsSub "enable_homebrew_blocker=1".data t = false →
      (validateGoldHENConfig t).score =
        max 0 (100 - 20 * ((requiredMissingCount t : Int)))) ∧
    ((validateGoldHENConfig t).score = 100 ↔ (validateGoldHENConfig t).issues = []) ∧
    ((validateGoldHENConfig t).isValid = true ↔ (validateGoldHENConfig t).issues = []) := by
  cases h1 : containsSub "enable_plugins_loader=1".data t <;>
    cases h2 : containsSub "enable_game_patch_plugin=1".data t <;>
      cases h3 : containsSub "enable_homebrew_blocker=1".data t <;>
        cases h4 : containsSub "enable_ftp_server=1".data t <;>
          simp [validateGoldHENConfig, requiredMissingCount, violatedChecks,
            h1, h2, h3, h4]

/-- Witness for `validateGoldHENConfig_score` on the empty document (all three
required settings missing, blocker absent, score 40). -/
theorem validateGoldHENConfig_score_witness :
    containsSub "enable_homebrew_blocker=1".data "".data = false ∧
    (validateGoldHENConfig "".data).score =
      max 0 (100 - 20 * ((requiredMissingCount "".data : Int))) ∧
    (validateGoldHENConfig "".data).score = 40 :=
  ⟨by decide, (validateGoldHENConfig_score "".data).2.2.1 (by decide), by decide⟩

/-! ### Claim C9: the canonical configuration always validates perfectly -/

/-- The `OPTIMAL_GOLDHEN_CONFIG` static mapping (config-manager source), in
object insertion order. -/
def OPTIMAL_GOLDHEN_CONFIG : List (List Char × List Char) :=
  [("enable_plugins_loader".data, "1".data),
   ("enable_game_patch_plugin".data, "1".data),
   ("enable_homebrew_blocker".data, "0".data),
   ("enable_rest_mode_patch".data, "1".data),
   ("enable_app_browser_patch".data, "1".data),
   ("enable_ftp_server".data, "1".data),
   ("ftp_port".data, "2121".data),
   ("enable_network_dump".data, "0".data),
   ("enable_bin_loader".data, "1".data),
   ("bin_loader_port".data, "9020".data),
   ("enable_game_compatibility_patch".data, "1".data),
   ("enable_legacy_game_support".data, "1".data),
   ("enable_cpu_temp_patch".data, "1".data),
   ("enable_fan_control".data, "0".data),
   ("enable_debug_log".data, "0".data),
   ("enable_crash_dumps".data, "1".data)]

/-- The `key=value\n` accumulation loop of `createOptimalConfig`. -/
def configEntriesText : List (List Char × List Char) → List Char
  | [] => []
  | (k, v) :: rest => k ++ '=' :: (v ++ '\n' :: configEntriesText rest)

/-- Embedding of `createOptimalConfig` (config-manager source): the
`[Settings]` section from the static mapping, then the `[Advanced]` comment
block ending in `# Generated on: ` followed by the timestamp.  The timestamp
(`new Date().toISOString()` in the source) is the parameter. -/
def createOptimalConfig (timestamp : List Char) : List Char :=
  "[Settings]\n".data ++ configEntriesText OPTIMAL_GOLDHEN_CONFIG ++
  "\n[Advanced]\n".data ++
  "# Auto-generated optimal configuration for PSFree + GoldHEN\n".data ++
  "# This configuration optimizes plugin loading for better game compatibility\n".data ++
  "# Generated on: ".data ++ timestamp ++ "\n".data

/-- Everything `createOptimalConfig` emits before the timestamp. -/
def optimalConfigHead : List Char :=
  "[Settings]\n".data ++ configEntriesText OPTIMAL_GOLDHEN_CONFIG ++
  "\n[Advanced]\n".data ++
  "# Auto-generated optimal configuration for PSFree + GoldHEN\n".data ++
  "# This configuration optimizes plugin loading for better game compatibility\n".data ++
  "# Generated on: ".data

/-- The characters a JavaScript `Date.prototype.toISOString` result is built
from: digits, hyphen, colon, dot, `T` and `Z`. -/
def isoTimestampChars : List Char := "0123456789-:.TZ".data

theorem createOptimalConfig_shape (timestamp : List Char) :
    createOptimalConfig timestamp = optimalConfigHead ++ (timestamp ++ ['\n']) := by
  simp [createOptimalConfig, optimalConfigHead, List.append_assoc]

/-- C9: for every invocation time (any timestamp made of ISO-timestamp
characters), the text produced by `createOptimalConfig` validates with no
issues: `isValid = true` and `score = 100`. -/
theorem createOptimalConfig_valid (ts : List Char)
    (hts : ∀ c ∈ ts, c ∈ isoTimestampChars) :
    validateGoldHENConfig (createOptimalConfig ts) =
      { isValid := true, issues := [], score := 100 } := by
  have hshape := createOptimalConfig_shape ts
  have p1 : containsSub "enable_plugins_loader=1".data (createOptimalConfig ts) = true := by
    rw [hshape]
    exact containsSub_append_left _ _ _ (by decide)
  have p2 : containsSub "enable_game_patch_plugin=1".data (createOptimalConfig ts) = true := by
    rw [hshape]
    exact containsSub_append_left _ _ _ (by decide)
  have p4 : containsSub "enable_ftp_server=1".data (createOptimalConfig ts) = true := by
    rw [hshape]
    exact containsSub_append_left _ _ _ (by decide)
  have hblock : containsSub "enable_homebrew_blocker=1".data (createOptimalConfig ts) = false := by
    rw [hshape]
    by_contra hcon
    rw [Bool.not_eq_false] at hcon
    rcases containsSub_append_cases hcon with hA | hB |
      ⟨n₁, n₂, hsplit, hn₁ne, _hn₂ne, hsuf, _hpre⟩
    · have hfalse : containsSub "enable_homebrew_blocker=1".data optimalConfigHead = false := by
        decide
      rw [hfalse] at hA
      exact Bool.false_ne_true hA
    · rcases containsSub_append_cases hB with hts' | hnl |
        ⟨m₁, m₂, hm, _hm₁ne, hm₂ne, _hmsuf, hmpre⟩
      · have hu : '_' ∈ "enable_homebrew_blocker=1".data := by decide
        have hmem : '_' ∈ ts := mem_of_containsSub hts' hu
        exact absurd (hts _ hmem) (by decide)
      · have hu : '_' ∈ "enable_homebrew_blocker=1".data := by decide
        have hmem : '_' ∈ ['\n'] := mem_of_containsSub hnl hu
        exact absurd hmem (by decide)
      · obtain ⟨t, ht⟩ := hmpre
        cases m₂ with
        | nil => exact hm₂ne rfl
        | cons a as =>
          have ha : a = '\n' := by
            have := ht
            simp only [List.cons_append] at this
            exact (List.cons.injEq _ _ _ _).mp this |>.1
          have hmem : '\n' ∈ "enable_homebrew_blocker=1".data := by
            rw [hm, ha]
            exact List.mem_append_right m₁ (List.mem_cons_self _ _)
          exact absurd hmem (by decide)
    · have h₁ : n₁.getLast? = some (n₁.getLast hn₁ne) := List.getLast?_eq_getLast n₁ hn₁ne
      obtain ⟨w, hw⟩ := hsuf
      have h₂ : optimalConfigHead.getLast? = some (n₁.getLast hn₁ne) := by
        rw [← hw, List.getLast?_append, h₁]
        rfl
      have h₃ : optimalConfigHead.getLast? = some ' ' := by decide
      have h₄ : n₁.getLast hn₁ne = ' ' := Option.some.inj (h₂.symm.trans h₃)
      have h₅ : ' ' ∈ n₁ := h₄ ▸ List.getLast_mem hn₁ne
      have h₆ : ' ' ∈ "enable_homebrew_blocker=1".data := by
        rw [hsplit]
        exact List.mem_append_left n₂ h₅
      exact absurd h₆ (by decide)
  simp [validateGoldHENConfig, p1, p2, p4, hblock]

/-- Witness for `createOptimalConfig_valid` at a concrete ISO timestamp. -/
theorem createOptimalConfig_valid_witness :
    (∀ c ∈ "2025-01-01T00:00:00.000Z".data, c ∈ isoTimestampChars) ∧
    validateGoldHENConfig (createOptimalConfig "2025-01-01T00:00:00.000Z".data) =
      { isValid := true, issues := [], score := 100 } :=
  ⟨by decide, createOptimalConfig_valid "2025-01-01T00:00:00.000Z".data (by decide)⟩
